import Mathlib

/-
Verification development for the camera-overlay frame pipeline.

The definitions below are a shallow embedding of the TypeScript sources
src/frame-converter.ts and src/camera-api.ts:

* Node byte buffers are modeled as `Array Nat`.  A JavaScript buffer read
  `buf[i] ?? d` yields the byte when `0 ≤ i < length` and the default `d`
  otherwise (negative and out-of-range indices give `undefined`); a write
  `buf[i] = v` stores `v mod 256` when `i` is in range and is a silent
  no-op otherwise.
* JavaScript number arithmetic on pixel coordinates is modeled exactly over
  `ℚ` (and `Int`/`Nat` where the source values are integral):
  `Math.floor(x * (sw / bw))` becomes the exact rational floor, which for
  natural `x, sw, bw` with `bw > 0` is natural division `x * sw / bw`.
* `Array.prototype.sort(cmp)` (ES2019: stable, ordered by the sign of the
  comparator) is modeled by `List.insertionSort` with the reflexive order
  `cmp a b ≤ 0`, which computes exactly the stable sort; the in-place
  mutation of the receiver is made explicit where it matters
  (`selectBestCameraFormatRun`).
* The capture cycle of `CameraAPI.captureFrame` is modeled as a function
  from the mutable fields it touches plus a description of what the
  external camera/decoder do during the cycle, to the updated fields and
  the frame (if any) handed to the frame callback.
-/

namespace CameraOverlay

/-! ### Byte buffers (Node `Buffer`) -/

/-- Read `buf[i]` with default `d` at a natural index. -/
def bufRead (b : Array Nat) (i : Nat) (d : Nat) : Nat :=
  b.getD i d

/-- Read `buf[i] ?? d` at a possibly negative (Int) index, as in the
bilinear/nearest-neighbor samplers where `sourceDim - 1` can be `-1`. -/
def bufGetD (b : Array Nat) (i : Int) (d : Nat) : Nat :=
  if 0 ≤ i then b.getD i.toNat d else d

/-- Write `buf[i] = v`: stores `v mod 256` in range, no-op out of range. -/
def bufWrite (b : Array Nat) (i : Nat) (v : Nat) : Array Nat :=
  b.setD i (v % 256)

/-- Four consecutive byte stores `buf[i..i+3] = v0,v1,v2,v3`, the shape of
every per-pixel RGBA write in frame-converter.ts. -/
def write4 (b : Array Nat) (i : Nat) (v0 v1 v2 v3 : Nat) : Array Nat :=
  bufWrite (bufWrite (bufWrite (bufWrite b i v0) (i + 1) v1) (i + 2) v2) (i + 3) v3

/-- Model of `src.copy(dst)`: copy `min srcLen dstLen` raw bytes to offset 0. -/
def bufCopy (src dst : Array Nat) : Array Nat :=
  (List.range (min src.size dst.size)).foldl (fun b i => b.setD i (src.getD i 0)) dst

/-- Model of `Math.round` on the nonnegative rationals produced by the
bilinear interpolation (round half up). -/
def jsRound (q : ℚ) : Nat :=
  (⌊q + 1 / 2⌋).toNat

/-- Row-major double loop `for y in [0,bh) for x in [0,bw)` threading a
byte buffer, the common shape of all pixel loops in frame-converter.ts. -/
def gridFold (bw bh : Nat) (body : Array Nat → Nat → Nat → Array Nat) (buf : Array Nat) : Array Nat :=
  (List.range bh).foldl (fun b y => (List.range bw).foldl (fun b x => body b y x) b) buf

/-! ### frame-converter.ts -/

/-- Camera frame handed to the converter (`FrameData`). -/
structure FrameData where
  data : Array Nat
  width : Nat
  height : Nat
  format : String

/-- Conversion quality switch (`'fast' | 'quality'`). -/
inductive Quality where
  | fast
  | quality
deriving DecidableEq

/-- `convertRGBToRGBAWithNearestNeighbor` (frame-converter.ts lines 216-242).
The per-row lets `srcY`, `rowOffset`, `dstRowOffset` are recomputed per pixel
here; they do not depend on `x`, so the values are identical. -/
def convertRGBToRGBAWithNearestNeighbor (sourceData buffer : Array Nat)
    (sourceWidth sourceHeight bufferWidth bufferHeight : Nat) : Array Nat :=
  gridFold bufferWidth bufferHeight (fun b y x =>
    let srcY : Int := min ((y * sourceHeight / bufferHeight : Nat) : Int) ((sourceHeight : Int) - 1)
    let rowOffset : Int := srcY * sourceWidth
    let srcX : Int := min ((x * sourceWidth / bufferWidth : Nat) : Int) ((sourceWidth : Int) - 1)
    let srcIdx : Int := (rowOffset + srcX) * 3
    let dstIdx : Nat := (y * bufferWidth + x) * 4
    write4 b dstIdx (bufGetD sourceData srcIdx 0) (bufGetD sourceData (srcIdx + 1) 0)
      (bufGetD sourceData (srcIdx + 2) 0) 255) buffer

/-- `convertRGBAToRGBAWithNearestNeighbor` (frame-converter.ts lines 248-274).
Alpha defaults to 255 (`sourceData[srcIdx + 3] ?? 255`). -/
def convertRGBAToRGBAWithNearestNeighbor (sourceData buffer : Array Nat)
    (sourceWidth sourceHeight bufferWidth bufferHeight : Nat) : Array Nat :=
  gridFold bufferWidth bufferHeight (fun b y x =>
    let srcY : Int := min ((y * sourceHeight / bufferHeight : Nat) : Int) ((sourceHeight : Int) - 1)
    let rowOffset : Int := srcY * sourceWidth
    let srcX : Int := min ((x * sourceWidth / bufferWidth : Nat) : Int) ((sourceWidth : Int) - 1)
    let srcIdx : Int := (rowOffset + srcX) * 4
    let dstIdx : Nat := (y * bufferWidth + x) * 4
    write4 b dstIdx (bufGetD sourceData srcIdx 0) (bufGetD sourceData (srcIdx + 1) 0)
      (bufGetD sourceData (srcIdx + 2) 0) (bufGetD sourceData (srcIdx + 3) 255)) buffer

/-- `convertRGBToRGBAWithScaling` (frame-converter.ts lines 90-145), bilinear
interpolation with the float arithmetic modeled exactly over `ℚ`. -/
def convertRGBToRGBAWithScaling (sourceData buffer : Array Nat)
    (sourceWidth sourceHeight bufferWidth bufferHeight : Nat) : Array Nat :=
  gridFold bufferWidth bufferHeight (fun b y x =>
    let srcY : ℚ := y * ((sourceHeight : ℚ) / bufferHeight)
    let y0 : Int := ⌊srcY⌋
    let y1 : Int := min (y0 + 1) ((sourceHeight : Int) - 1)
    let fy : ℚ := srcY - y0
    let srcX : ℚ := x * ((sourceWidth : ℚ) / bufferWidth)
    let x0 : Int := ⌊srcX⌋
    let x1 : Int := min (x0 + 1) ((sourceWidth : Int) - 1)
    let fx : ℚ := srcX - x0
    let idx00 : Int := (y0 * sourceWidth + x0) * 3
    let idx10 : Int := (y0 * sourceWidth + x1) * 3
    let idx01 : Int := (y1 * sourceWidth + x0) * 3
    let idx11 : Int := (y1 * sourceWidth + x1) * 3
    let w00 : ℚ := (1 - fx) * (1 - fy)
    let w10 : ℚ := fx * (1 - fy)
    let w01 : ℚ := (1 - fx) * fy
    let w11 : ℚ := fx * fy
    let dstIdx : Nat := (y * bufferWidth + x) * 4
    write4 b dstIdx
      (jsRound (w00 * (bufGetD sourceData idx00 0 : ℚ) + w10 * (bufGetD sourceData idx10 0 : ℚ) +
        w01 * (bufGetD sourceData idx01 0 : ℚ) + w11 * (bufGetD sourceData idx11 0 : ℚ)))
      (jsRound (w00 * (bufGetD sourceData (idx00 + 1) 0 : ℚ) + w10 * (bufGetD sourceData (idx10 + 1) 0 : ℚ) +
        w01 * (bufGetD sourceData (idx01 + 1) 0 : ℚ) + w11 * (bufGetD sourceData (idx11 + 1) 0 : ℚ)))
      (jsRound (w00 * (bufGetD sourceData (idx00 + 2) 0 : ℚ) + w10 * (bufGetD sourceData (idx10 + 2) 0 : ℚ) +
        w01 * (bufGetD sourceData (idx01 + 2) 0 : ℚ) + w11 * (bufGetD sourceData (idx11 + 2) 0 : ℚ)))
      255) buffer

/-- `convertRGBAToRGBAWithScaling` (frame-converter.ts lines 150-210); the
alpha channel is interpolated with default 255 on out-of-range reads. -/
def convertRGBAToRGBAWithScaling (sourceData buffer : Array Nat)
    (sourceWidth sourceHeight bufferWidth bufferHeight : Nat) : Array Nat :=
  gridFold bufferWidth bufferHeight (fun b y x =>
    let srcY : ℚ := y * ((sourceHeight : ℚ) / bufferHeight)
    let y0 : Int := ⌊srcY⌋
    let y1 : Int := min (y0 + 1) ((sourceHeight : Int) - 1)
    let fy : ℚ := srcY - y0
    let srcX : ℚ := x * ((sourceWidth : ℚ) / bufferWidth)
    let x0 : Int := ⌊srcX⌋
    let x1 : Int := min (x0 + 1) ((sourceWidth : Int) - 1)
    let fx : ℚ := srcX - x0
    let idx00 : Int := (y0 * sourceWidth + x0) * 4
    let idx10 : Int := (y0 * sourceWidth + x1) * 4
    let idx01 : Int := (y1 * sourceWidth + x0) * 4
    let idx11 : Int := (y1 * sourceWidth + x1) * 4
    let w00 : ℚ := (1 - fx) * (1 - fy)
    let w10 : ℚ := fx * (1 - fy)
    let w01 : ℚ := (1 - fx) * fy
    let w11 : ℚ := fx * fy
    let dstIdx : Nat := (y * bufferWidth + x) * 4
    write4 b dstIdx
      (jsRound (w00 * (bufGetD sourceData idx00 0 : ℚ) + w10 * (bufGetD sourceData idx10 0 : ℚ) +
        w01 * (bufGetD sourceData idx01 0 : ℚ) + w11 * (bufGetD sourceData idx11 0 : ℚ)))
      (jsRound (w00 * (bufGetD sourceData (idx00 + 1) 0 : ℚ) + w10 * (bufGetD sourceData (idx10 + 1) 0 : ℚ) +
        w01 * (bufGetD sourceData (idx01 + 1) 0 : ℚ) + w11 * (bufGetD sourceData (idx11 + 1) 0 : ℚ)))
      (jsRound (w00 * (bufGetD sourceData (idx00 + 2) 0 : ℚ) + w10 * (bufGetD sourceData (idx10 + 2) 0 : ℚ) +
        w01 * (bufGetD sourceData (idx01 + 2) 0 : ℚ) + w11 * (bufGetD sourceData (idx11 + 2) 0 : ℚ)))
      (jsRound (w00 * (bufGetD sourceData (idx00 + 3) 255 : ℚ) + w10 * (bufGetD sourceData (idx10 + 3) 255 : ℚ) +
        w01 * (bufGetD sourceData (idx01 + 3) 255 : ℚ) + w11 * (bufGetD sourceData (idx11 + 3) 255 : ℚ)))) buffer

/-- `fillGradient` (frame-converter.ts lines 279-289): the diagnostic
gradient for unknown formats.  `Math.floor(x * 255 / width)` is the exact
natural division for natural arguments. -/
def fillGradient (buffer : Array Nat) (width height : Nat) : Array Nat :=
  gridFold width height (fun b y x =>
    let idx : Nat := (y * width + x) * 4
    write4 b idx (x * 255 / width) (y * 255 / height) 128 255) buffer

/-- `convertFrameToRGBABufferNoScale` (frame-converter.ts lines 63-85):
fast path when source and target dimensions coincide. -/
def convertFrameToRGBABufferNoScale (frame : FrameData) (buffer : Array Nat) : Array Nat :=
  let sourceData := frame.data
  let pixelCount := frame.width * frame.height
  if frame.format = "RGB" ∨ frame.format = "MJPEG" ∨ frame.format = "YUYV" then
    (List.range pixelCount).foldl (fun b i =>
      write4 b (i * 4) (sourceData.getD (i * 3) 0) (sourceData.getD (i * 3 + 1) 0)
        (sourceData.getD (i * 3 + 2) 0) 255) buffer
  else if frame.format = "RGBA" then
    bufCopy sourceData buffer
  else
    fillGradient buffer frame.width frame.height

/-- `convertFrameToRGBABuffer` (frame-converter.ts lines 18-58); `q` is the
quality parameter. -/
def convertFrameToRGBABuffer (frame : FrameData) (bufferWidth bufferHeight : Nat)
    (q : Quality) : Array Nat :=
  let targetSize := bufferWidth * bufferHeight * 4
  let buffer := Array.mkArray targetSize 0
  let sourceData := frame.data
  let sourceWidth := frame.width
  let sourceHeight := frame.height
  if sourceWidth = bufferWidth ∧ sourceHeight = bufferHeight then
    convertFrameToRGBABufferNoScale frame buffer
  else if frame.format = "RGB" ∨ frame.format = "MJPEG" ∨ frame.format = "YUYV" then
    match q with
    | .fast => convertRGBToRGBAWithNearestNeighbor sourceData buffer sourceWidth sourceHeight bufferWidth bufferHeight
    | .quality => convertRGBToRGBAWithScaling sourceData buffer sourceWidth sourceHeight bufferWidth bufferHeight
  else if frame.format = "RGBA" then
    match q with
    | .fast => convertRGBAToRGBAWithNearestNeighbor sourceData buffer sourceWidth sourceHeight bufferWidth bufferHeight
    | .quality => convertRGBAToRGBAWithScaling sourceData buffer sourceWidth sourceHeight bufferWidth bufferHeight
  else
    fillGradient buffer bufferWidth bufferHeight

/-! ### Format selection (frame-converter.ts lines 295-334) -/

/-- Advertised camera mode (`CameraFormat`). -/
structure CameraFormat where
  format : String
  width : Nat
  height : Nat
  frameRate : Nat
deriving DecidableEq

/-- Resolution preference (`'highest' | 'medium' | 'lowest'`). -/
inductive ResolutionPref where
  | highest
  | medium
  | lowest
deriving DecidableEq

/-- The sort comparator of `selectBestCameraFormat` (lines 313-331). -/
def formatCompare (pref : ResolutionPref) (a b : CameraFormat) : Int :=
  let resA : Int := (a.width : Int) * a.height
  let resB : Int := (b.width : Int) * b.height
  match pref with
  | .highest => if resB ≠ resA then resB - resA else (b.frameRate : Int) - a.frameRate
  | .lowest => if resA ≠ resB then resA - resB else (b.frameRate : Int) - a.frameRate
  | .medium =>
      let targetRes : Int := 1280 * 720
      let diffA := |resA - targetRes|
      let diffB := |resB - targetRes|
      if diffA ≠ diffB then diffA - diffB else (b.frameRate : Int) - a.frameRate

/-- `a` may stay before `b` under the comparator: `cmp a b ≤ 0`.  The stable
sort with respect to this relation is exactly what ES2019
`Array.prototype.sort` produces for this comparator. -/
def cmpLe (pref : ResolutionPref) (a b : CameraFormat) : Prop :=
  formatCompare pref a b ≤ 0

instance (pref : ResolutionPref) : DecidableRel (cmpLe pref) :=
  fun a b => inferInstanceAs (Decidable (formatCompare pref a b ≤ 0))

/-- `selectBestCameraFormat` (frame-converter.ts lines 302-334), result value. -/
def selectBestCameraFormat (formats : List CameraFormat) (preferResolution : ResolutionPref) :
    Option CameraFormat :=
  if formats.length = 0 then none
  else
    let mjpegFormats := formats.filter (fun f => f.format == "MJPEG")
    let formatsToConsider := if mjpegFormats.length > 0 then mjpegFormats else formats
    let sorted := formatsToConsider.insertionSort (cmpLe preferResolution)
    sorted.head?

/-- `selectBestCameraFormat` together with the final contents of the caller
supplied `formats` array: `Array.prototype.sort` sorts its receiver in
place, so when no MJPEG mode exists the input array itself is sorted,
while in the MJPEG branch only the fresh array built by `filter` is. -/
def selectBestCameraFormatRun (formats : List CameraFormat) (preferResolution : ResolutionPref) :
    Option CameraFormat × List CameraFormat :=
  if formats.length = 0 then (none, formats)
  else
    let mjpegFormats := formats.filter (fun f => f.format == "MJPEG")
    if mjpegFormats.length > 0 then
      ((mjpegFormats.insertionSort (cmpLe preferResolution)).head?, formats)
    else
      let sorted := formats.insertionSort (cmpLe preferResolution)
      (sorted.head?, sorted)

/-! ### Capture cycle (camera-api.ts, `CameraAPI.captureFrame`, lines 249-360) -/

/-- The mutable fields of `CameraAPI` that one capture cycle reads or
writes.  `hasCamera` stands for `activeCamera !== null` and `hasCallback`
for `frameCallback !== null`. -/
structure CaptureState where
  hasCamera : Bool
  isStreaming : Bool
  frameCount : Nat
  consecutiveErrors : Nat
  disposed : Bool
  captureInProgress : Bool
  hasCallback : Bool
deriving DecidableEq

/-- `maxConsecutiveErrors` (camera-api.ts line 32). -/
def maxConsecutiveErrors : Nat := 10

/-- What the native `activeCamera.captureFrame()` call does this cycle. -/
inductive FrameFetch where
  | throws
  | missing
  | frame (data : List Nat) (width height : Nat)
deriving DecidableEq

/-- What the native MJPEG/YUYV decoder does this cycle when invoked:
throw, return a null/undefined result, or return decoded RGB bytes. -/
inductive DecodeBehavior where
  | throws
  | nullResult
  | returns (rgb : List Nat)
deriving DecidableEq

/-- External behavior during one capture cycle: the `isStreamOpen()` check
(`none` models the check itself throwing), the captured frame, the
`cameraFormat().format` query (`none` models it throwing, keeping the
default label RGBA), and the decoder. -/
structure CycleInput where
  streamOpen : Option Bool
  fetch : FrameFetch
  camFormat : Option String
  decode : DecodeBehavior
deriving DecidableEq

/-- Frame handed to the frame callback (`CameraFrame`). -/
structure CameraFrame where
  data : List Nat
  width : Nat
  height : Nat
  format : String
deriving DecidableEq

/-- One run of `CameraAPI.captureFrame` (camera-api.ts lines 249-360).
Returns the updated state and the frame delivered to the callback, if any.
The `finally` block clears `captureInProgress`, so across a full cycle the
flag returns to its initial value; the synchronous part of `stopStream`
invoked at the error threshold sets `isStreaming := false`. -/
def captureFrame (s : CaptureState) (inp : CycleInput) : CaptureState × Option CameraFrame :=
  if s.disposed || s.captureInProgress then (s, none)
  else if !s.hasCamera || !s.isStreaming || !s.hasCallback then (s, none)
  else if inp.streamOpen ≠ some true then (s, none)
  else
    let s1 := { s with captureInProgress := true, frameCount := s.frameCount + 1 }
    match inp.fetch with
    | .throws =>
        let s2 := { s1 with consecutiveErrors := s1.consecutiveErrors + 1 }
        let s3 := if maxConsecutiveErrors ≤ s2.consecutiveErrors then
          { s2 with isStreaming := false } else s2
        ({ s3 with captureInProgress := false }, none)
    | .missing => ({ s1 with captureInProgress := false }, none)
    | .frame data w h =>
        if data.length = 0 then ({ s1 with captureInProgress := false }, none)
        else
          let s2 := { s1 with consecutiveErrors := 0 }
          let fmt0 := inp.camFormat.getD "RGBA"
          let fmt1 := if data.length = w * h * 4 then "RGBA"
            else if data.length = w * h * 3 then "RGB" else fmt0
          let step :=
            if fmt1 = "MJPEG" then
              if data.length < 10 then (data, fmt1)
              else match inp.decode with
                | .throws => (data, fmt1)
                | .nullResult => (data, fmt1)
                | .returns rgb => (rgb, "RGB")
            else if fmt1 = "YUYV" then
              match inp.decode with
                | .throws => (data, fmt1)
                | .nullResult => (data, fmt1)
                | .returns rgb => (rgb, "RGB")
            else (data, fmt1)
          ({ s2 with captureInProgress := false },
            if s2.isStreaming && !s2.disposed && s2.hasCallback then
              some ⟨step.1, w, h, step.2⟩ else none)

/-- One firing of the rescheduling `capture` closure of `startStream`
(camera-api.ts lines 172-186): when streaming has stopped it neither
captures nor schedules another cycle; otherwise it runs `captureFrame` and
schedules the next cycle.  The third component records whether another
cycle was scheduled. -/
def captureLoopStep (s : CaptureState) (inp : CycleInput) :
    CaptureState × Option CameraFrame × Bool :=
  if !s.isStreaming || !s.hasCamera then (s, none, false)
  else
    let r := captureFrame s inp
    (r.1, r.2, true)

/-! ### Buffer lemmas -/

theorem size_bufWrite (b : Array Nat) (i v : Nat) : (bufWrite b i v).size = b.size := by
  simp [bufWrite]

theorem size_write4 (b : Array Nat) (i v0 v1 v2 v3 : Nat) :
    (write4 b i v0 v1 v2 v3).size = b.size := by
  simp [write4, size_bufWrite]

theorem bufRead_bufWrite_self {b : Array Nat} {i : Nat} (v d : Nat) (h : i < b.size) :
    bufRead (bufWrite b i v) i d = v % 256 := by
  unfold bufRead bufWrite
  rw [Array.getD_eq_get?, Array.getElem?_setD_eq b h]
  rfl

theorem bufRead_bufWrite_ne {b : Array Nat} {i j : Nat} (v d : Nat) (h : j ≠ i) :
    bufRead (bufWrite b i v) j d = bufRead b j d := by
  unfold bufRead bufWrite
  rw [Array.getD_eq_get?, Array.getD_eq_get?]
  congr 1
  unfold Array.setD
  split
  · next hlt => exact Array.getElem?_set_ne b ⟨i, hlt⟩ _ (by simpa using Ne.symm h)
  · rfl

theorem bufRead_write4_within {b : Array Nat} {i : Nat} (v0 v1 v2 v3 : Nat)
    (h : i + 3 < b.size) :
    bufRead (write4 b i v0 v1 v2 v3) i 0 = v0 % 256 ∧
    bufRead (write4 b i v0 v1 v2 v3) (i + 1) 0 = v1 % 256 ∧
    bufRead (write4 b i v0 v1 v2 v3) (i + 2) 0 = v2 % 256 ∧
    bufRead (write4 b i v0 v1 v2 v3) (i + 3) 0 = v3 % 256 := by
  have s0 : (bufWrite b i v0).size = b.size := size_bufWrite ..
  have s1 : (bufWrite (bufWrite b i v0) (i + 1) v1).size = b.size := by
    rw [size_bufWrite, s0]
  have s2 : (bufWrite (bufWrite (bufWrite b i v0) (i + 1) v1) (i + 2) v2).size = b.size := by
    rw [size_bufWrite, s1]
  unfold write4
  refine ⟨?_, ?_, ?_, ?_⟩
  · rw [bufRead_bufWrite_ne _ _ (by omega), bufRead_bufWrite_ne _ _ (by omega),
      bufRead_bufWrite_ne _ _ (by omega), bufRead_bufWrite_self _ _ (by omega)]
  · rw [bufRead_bufWrite_ne _ _ (by omega), bufRead_bufWrite_ne _ _ (by omega),
      bufRead_bufWrite_self _ _ (by omega)]
  · rw [bufRead_bufWrite_ne _ _ (by omega), bufRead_bufWrite_self _ _ (by omega)]
  · rw [bufRead_bufWrite_self _ _ (by omega)]

theorem bufRead_write4_outside {b : Array Nat} {i j : Nat} (v0 v1 v2 v3 : Nat)
    (h : j < i ∨ i + 3 < j) :
    bufRead (write4 b i v0 v1 v2 v3) j 0 = bufRead b j 0 := by
  unfold write4
  rw [bufRead_bufWrite_ne _ _ (by omega), bufRead_bufWrite_ne _ _ (by omega),
    bufRead_bufWrite_ne _ _ (by omega), bufRead_bufWrite_ne _ _ (by omega)]

theorem size_foldl_preserved {β : Type} (l : List β) (f : Array Nat → β → Array Nat)
    (hf : ∀ b x, (f b x).size = b.size) (b : Array Nat) : (l.foldl f b).size = b.size := by
  induction l generalizing b with
  | nil => rfl
  | cons a l ih => rw [List.foldl_cons, ih, hf]

theorem size_gridFold (bw bh : Nat) (body : Array Nat → Nat → Nat → Array Nat)
    (hbody : ∀ b y x, (body b y x).size = b.size) (buf : Array Nat) :
    (gridFold bw bh body buf).size = buf.size := by
  unfold gridFold
  exact size_foldl_preserved _ _
    (fun b y => size_foldl_preserved _ _ (fun b x => hbody b y x) b) buf

theorem size_bufCopy (src dst : Array Nat) : (bufCopy src dst).size = dst.size := by
  unfold bufCopy
  exact size_foldl_preserved _ _ (fun b i => by simp) dst

/-- Main workhorse: a fold over `List.range m` whose body writes the four
bytes of pixel `base + i` leaves all other indices untouched and stores the
intended values (mod 256) at every in-range pixel. -/
theorem rangeFold_write4
    (body : Array Nat → Nat → Array Nat) (base : Nat) (v0 v1 v2 v3 : Nat → Nat)
    (hbody : ∀ b i, body b i = write4 b ((base + i) * 4) (v0 i) (v1 i) (v2 i) (v3 i))
    (m : Nat) (b : Array Nat) :
    ((List.range m).foldl body b).size = b.size ∧
    (∀ j, (j < base * 4 ∨ (base + m) * 4 ≤ j) →
      bufRead ((List.range m).foldl body b) j 0 = bufRead b j 0) ∧
    (∀ i, i < m → (base + i) * 4 + 3 < b.size →
      bufRead ((List.range m).foldl body b) ((base + i) * 4) 0 = v0 i % 256 ∧
      bufRead ((List.range m).foldl body b) ((base + i) * 4 + 1) 0 = v1 i % 256 ∧
      bufRead ((List.range m).foldl body b) ((base + i) * 4 + 2) 0 = v2 i % 256 ∧
      bufRead ((List.range m).foldl body b) ((base + i) * 4 + 3) 0 = v3 i % 256) := by
  induction m with
  | zero => simp
  | succ m ih =>
    obtain ⟨ihsz, ihout, ihval⟩ := ih
    have hstep : (List.range (m + 1)).foldl body b = body ((List.range m).foldl body b) m := by
      rw [List.range_succ m, List.foldl_append, List.foldl_cons, List.foldl_nil]
    rw [hstep, hbody]
    refine ⟨?_, ?_, ?_⟩
    · rw [size_write4, ihsz]
    · intro j hj
      rw [bufRead_write4_outside _ _ _ _ (by omega)]
      exact ihout j (by omega)
    · intro i hi hib
      by_cases hcase : i = m
      · subst hcase
        have hsz : (base + i) * 4 + 3 < ((List.range i).foldl body b).size := by
          rw [ihsz]; exact hib
        obtain ⟨w0, w1, w2, w3⟩ := bufRead_write4_within (v0 i) (v1 i) (v2 i) (v3 i) hsz
        exact ⟨w0, w1, w2, w3⟩
      · have hlt : i < m := by omega
        obtain ⟨w0, w1, w2, w3⟩ := ihval i hlt hib
        refine ⟨?_, ?_, ?_, ?_⟩
        · rw [bufRead_write4_outside _ _ _ _ (by omega)]; exact w0
        · rw [bufRead_write4_outside _ _ _ _ (by omega)]; exact w1
        · rw [bufRead_write4_outside _ _ _ _ (by omega)]; exact w2
        · rw [bufRead_write4_outside _ _ _ _ (by omega)]; exact w3

theorem row_lt_row {bw x y k : Nat} (hx : x < bw) (hyk : y < k) : y * bw + x < k * bw := by
  have h1 : y * bw + x < y * bw + bw := Nat.add_lt_add_left hx _
  have h2 : y * bw + bw = (y + 1) * bw := by ring
  have h3 : (y + 1) * bw ≤ k * bw := Nat.mul_le_mul_right bw hyk
  exact lt_of_lt_of_le (h2 ▸ h1) h3

theorem pixel_lt_total {bw bh x y : Nat} (hx : x < bw) (hy : y < bh) :
    y * bw + x < bw * bh :=
  lt_of_lt_of_eq (row_lt_row hx hy) (Nat.mul_comm bh bw)

theorem pix4_lt {A B : Nat} (h : A < B) : A * 4 + 3 < B * 4 := by omega

/-- Every double pixel loop of frame-converter.ts, on a buffer of exactly
`bw * bh * 4` bytes, stores the intended four bytes (mod 256) of every
pixel and preserves the buffer size. -/
theorem gridFold_pixel
    (bw bh : Nat) (body : Array Nat → Nat → Nat → Array Nat)
    (v0 v1 v2 v3 : Nat → Nat → Nat)
    (hbody : ∀ b y x, body b y x = write4 b ((y * bw + x) * 4) (v0 y x) (v1 y x) (v2 y x) (v3 y x))
    (buf : Array Nat) (hsz : buf.size = bw * bh * 4) :
    (gridFold bw bh body buf).size = buf.size ∧
    ∀ y, y < bh → ∀ x, x < bw →
      bufRead (gridFold bw bh body buf) ((y * bw + x) * 4) 0 = v0 y x % 256 ∧
      bufRead (gridFold bw bh body buf) ((y * bw + x) * 4 + 1) 0 = v1 y x % 256 ∧
      bufRead (gridFold bw bh body buf) ((y * bw + x) * 4 + 2) 0 = v2 y x % 256 ∧
      bufRead (gridFold bw bh body buf) ((y * bw + x) * 4 + 3) 0 = v3 y x % 256 := by
  have aux : ∀ k, k ≤ bh →
      ((List.range k).foldl (fun b y => (List.range bw).foldl (fun b x => body b y x) b) buf).size = buf.size ∧
      ∀ y, y < k → ∀ x, x < bw →
        bufRead ((List.range k).foldl (fun b y => (List.range bw).foldl (fun b x => body b y x) b) buf) ((y * bw + x) * 4) 0 = v0 y x % 256 ∧
        bufRead ((List.range k).foldl (fun b y => (List.range bw).foldl (fun b x => body b y x) b) buf) ((y * bw + x) * 4 + 1) 0 = v1 y x % 256 ∧
        bufRead ((List.range k).foldl (fun b y => (List.range bw).foldl (fun b x => body b y x) b) buf) ((y * bw + x) * 4 + 2) 0 = v2 y x % 256 ∧
        bufRead ((List.range k).foldl (fun b y => (List.range bw).foldl (fun b x => body b y x) b) buf) ((y * bw + x) * 4 + 3) 0 = v3 y x % 256 := by
    intro k
    induction k with
    | zero => intro _; refine ⟨by simp, ?_⟩; intro y hy; omega
    | succ k ih =>
      intro hk
      obtain ⟨ihsz, ihval⟩ := ih (by omega)
      have hstep : (List.range (k + 1)).foldl (fun b y => (List.range bw).foldl (fun b x => body b y x) b) buf =
          (List.range bw).foldl (fun b x => body b k x)
            ((List.range k).foldl (fun b y => (List.range bw).foldl (fun b x => body b y x) b) buf) := by
        rw [List.range_succ k, List.foldl_append, List.foldl_cons, List.foldl_nil]
      obtain ⟨rsz, rout, rval⟩ := rangeFold_write4 (fun b x => body b k x) (k * bw)
        (fun x => v0 k x) (fun x => v1 k x) (fun x => v2 k x) (fun x => v3 k x)
        (fun b x => hbody b k x) bw
        ((List.range k).foldl (fun b y => (List.range bw).foldl (fun b x => body b y x) b) buf)
      refine ⟨by rw [hstep, rsz, ihsz], ?_⟩
      intro y hy x hx
      rw [hstep]
      by_cases hyk : y = k
      · subst hyk
        exact rval x hx (by
          rw [ihsz, hsz]
          exact pix4_lt (pixel_lt_total hx (by omega)))
      · have hyltk : y < k := by omega
        obtain ⟨w0, w1, w2, w3⟩ := ihval y hyltk x hx
        have hA : (y * bw + x) * 4 + 3 < (k * bw) * 4 := pix4_lt (row_lt_row hx hyltk)
        refine ⟨?_, ?_, ?_, ?_⟩
        · rw [rout _ (Or.inl (by omega))]; exact w0
        · rw [rout _ (Or.inl (by omega))]; exact w1
        · rw [rout _ (Or.inl (by omega))]; exact w2
        · rw [rout _ (Or.inl (by omega))]; exact w3
  obtain ⟨hszf, hvalf⟩ := aux bh (le_refl bh)
  exact ⟨hszf, hvalf⟩

/-! ### Sizes of the converter outputs -/

theorem size_convertRGBToRGBAWithNearestNeighbor (src buf : Array Nat) (sw sh bw bh : Nat) :
    (convertRGBToRGBAWithNearestNeighbor src buf sw sh bw bh).size = buf.size := by
  unfold convertRGBToRGBAWithNearestNeighbor
  exact size_gridFold _ _ _ (fun b y x => size_write4 ..) _

theorem size_convertRGBAToRGBAWithNearestNeighbor (src buf : Array Nat) (sw sh bw bh : Nat) :
    (convertRGBAToRGBAWithNearestNeighbor src buf sw sh bw bh).size = buf.size := by
  unfold convertRGBAToRGBAWithNearestNeighbor
  exact size_gridFold _ _ _ (fun b y x => size_write4 ..) _

theorem size_convertRGBToRGBAWithScaling (src buf : Array Nat) (sw sh bw bh : Nat) :
    (convertRGBToRGBAWithScaling src buf sw sh bw bh).size = buf.size := by
  unfold convertRGBToRGBAWithScaling
  exact size_gridFold _ _ _ (fun b y x => size_write4 ..) _

theorem size_convertRGBAToRGBAWithScaling (src buf : Array Nat) (sw sh bw bh : Nat) :
    (convertRGBAToRGBAWithScaling src buf sw sh bw bh).size = buf.size := by
  unfold convertRGBAToRGBAWithScaling
  exact size_gridFold _ _ _ (fun b y x => size_write4 ..) _

theorem size_fillGradient (buf : Array Nat) (w h : Nat) :
    (fillGradient buf w h).size = buf.size := by
  unfold fillGradient
  exact size_gridFold _ _ _ (fun b y x => size_write4 ..) _

theorem size_convertFrameToRGBABufferNoScale (frame : FrameData) (buffer : Array Nat) :
    (convertFrameToRGBABufferNoScale frame buffer).size = buffer.size := by
  unfold convertFrameToRGBABufferNoScale
  split
  · exact size_foldl_preserved _ _ (fun b i => size_write4 ..) _
  · split
    · exact size_bufCopy _ _
    · exact size_fillGradient _ _ _

theorem size_convertFrameToRGBABuffer (frame : FrameData) (bw bh : Nat) (q : Quality) :
    (convertFrameToRGBABuffer frame bw bh q).size = bw * bh * 4 := by
  unfold convertFrameToRGBABuffer
  simp only []
  repeat' split
  all_goals simp [size_convertFrameToRGBABufferNoScale, size_convertRGBToRGBAWithNearestNeighbor,
    size_convertRGBToRGBAWithScaling, size_convertRGBAToRGBAWithNearestNeighbor,
    size_convertRGBAToRGBAWithScaling, size_fillGradient]

/-! ### Evaluation helpers -/

theorem bufGetD_empty (i : Int) (d : Nat) : bufGetD #[] i d = d := by
  unfold bufGetD
  split
  · simp [Array.getD]
  · rfl

theorem jsRound_zero : jsRound 0 = 0 := by
  norm_num [jsRound]

theorem jsRound_255 : jsRound 255 = 255 := by
  unfold jsRound
  norm_num
  decide

theorem jsRound_weights_255 (fx fy : ℚ) :
    jsRound ((1 - fx) * (1 - fy) * ((255 : Nat) : ℚ) + fx * (1 - fy) * ((255 : Nat) : ℚ) +
      (1 - fx) * fy * ((255 : Nat) : ℚ) + fx * fy * ((255 : Nat) : ℚ)) = 255 := by
  have h : (1 - fx) * (1 - fy) * ((255 : Nat) : ℚ) + fx * (1 - fy) * ((255 : Nat) : ℚ) +
      (1 - fx) * fy * ((255 : Nat) : ℚ) + fx * fy * ((255 : Nat) : ℚ) = 255 := by
    push_cast
    ring
  rw [h, jsRound_255]

theorem getD_mod_of_bytes {src : Array Nat} (hbytes : ∀ v ∈ src, v < 256)
    {j : Nat} (hj : j < src.size) : src.getD j 0 % 256 = src.getD j 0 := by
  have hg : src.getD j 0 = src[j] := by
    rw [Array.getD_eq_get?, Array.getElem?_eq_getElem hj]
    rfl
  rw [hg]
  exact Nat.mod_eq_of_lt (hbytes _ (Array.getElem_mem hj))

/-! ### Branch reductions of the converter dispatch -/

theorem convert_dims_match (frame : FrameData) (bw bh : Nat) (q : Quality)
    (hw : frame.width = bw) (hh : frame.height = bh) :
    convertFrameToRGBABuffer frame bw bh q =
      convertFrameToRGBABufferNoScale frame (Array.mkArray (bw * bh * 4) 0) := by
  unfold convertFrameToRGBABuffer
  simp only []
  rw [if_pos ⟨hw, hh⟩]

theorem convert_dims_ne_rgbfam_fast (frame : FrameData) (bw bh : Nat)
    (hne : ¬(frame.width = bw ∧ frame.height = bh))
    (hfmt : frame.format = "RGB" ∨ frame.format = "MJPEG" ∨ frame.format = "YUYV") :
    convertFrameToRGBABuffer frame bw bh .fast =
      convertRGBToRGBAWithNearestNeighbor frame.data (Array.mkArray (bw * bh * 4) 0)
        frame.width frame.height bw bh := by
  unfold convertFrameToRGBABuffer
  simp only []
  rw [if_neg hne, if_pos hfmt]

theorem convert_dims_ne_rgbfam_quality (frame : FrameData) (bw bh : Nat)
    (hne : ¬(frame.width = bw ∧ frame.height = bh))
    (hfmt : frame.format = "RGB" ∨ frame.format = "MJPEG" ∨ frame.format = "YUYV") :
    convertFrameToRGBABuffer frame bw bh .quality =
      convertRGBToRGBAWithScaling frame.data (Array.mkArray (bw * bh * 4) 0)
        frame.width frame.height bw bh := by
  unfold convertFrameToRGBABuffer
  simp only []
  rw [if_neg hne, if_pos hfmt]

theorem convert_dims_ne_rgba_fast (frame : FrameData) (bw bh : Nat)
    (hne : ¬(frame.width = bw ∧ frame.height = bh))
    (hfmt1 : ¬(frame.format = "RGB" ∨ frame.format = "MJPEG" ∨ frame.format = "YUYV"))
    (hfmt2 : frame.format = "RGBA") :
    convertFrameToRGBABuffer frame bw bh .fast =
      convertRGBAToRGBAWithNearestNeighbor frame.data (Array.mkArray (bw * bh * 4) 0)
        frame.width frame.height bw bh := by
  unfold convertFrameToRGBABuffer
  simp only []
  rw [if_neg hne, if_neg hfmt1, if_pos hfmt2]

theorem convert_dims_ne_rgba_quality (frame : FrameData) (bw bh : Nat)
    (hne : ¬(frame.width = bw ∧ frame.height = bh))
    (hfmt1 : ¬(frame.format = "RGB" ∨ frame.format = "MJPEG" ∨ frame.format = "YUYV"))
    (hfmt2 : frame.format = "RGBA") :
    convertFrameToRGBABuffer frame bw bh .quality =
      convertRGBAToRGBAWithScaling frame.data (Array.mkArray (bw * bh * 4) 0)
        frame.width frame.height bw bh := by
  unfold convertFrameToRGBABuffer
  simp only []
  rw [if_neg hne, if_neg hfmt1, if_pos hfmt2]

theorem convert_unknown_grad (frame : FrameData) (bw bh : Nat) (q : Quality)
    (hfmt1 : ¬(frame.format = "RGB" ∨ frame.format = "MJPEG" ∨ frame.format = "YUYV"))
    (hfmt2 : ¬frame.format = "RGBA") :
    convertFrameToRGBABuffer frame bw bh q =
      fillGradient (Array.mkArray (bw * bh * 4) 0) bw bh := by
  unfold convertFrameToRGBABuffer
  simp only []
  by_cases hd : frame.width = bw ∧ frame.height = bh
  · rw [if_pos hd]
    unfold convertFrameToRGBABufferNoScale
    simp only []
    rw [if_neg hfmt1, if_neg hfmt2, hd.1, hd.2]
  · rw [if_neg hd, if_neg hfmt1, if_neg hfmt2]

theorem noScale_rgbfam (frame : FrameData) (buffer : Array Nat)
    (hfmt : frame.format = "RGB" ∨ frame.format = "MJPEG" ∨ frame.format = "YUYV") :
    convertFrameToRGBABufferNoScale frame buffer =
      (List.range (frame.width * frame.height)).foldl (fun b i =>
        write4 b (i * 4) (frame.data.getD (i * 3) 0) (frame.data.getD (i * 3 + 1) 0)
          (frame.data.getD (i * 3 + 2) 0) 255) buffer := by
  unfold convertFrameToRGBABufferNoScale
  simp only []
  rw [if_pos hfmt]

/-! ### Pixel values of the converter loops -/

theorem fillGradient_pixel (buf : Array Nat) (w h : Nat) (hsz : buf.size = w * h * 4) :
    ∀ y, y < h → ∀ x, x < w →
      bufRead (fillGradient buf w h) ((y * w + x) * 4) 0 = x * 255 / w ∧
      bufRead (fillGradient buf w h) ((y * w + x) * 4 + 1) 0 = y * 255 / h ∧
      bufRead (fillGradient buf w h) ((y * w + x) * 4 + 2) 0 = 128 ∧
      bufRead (fillGradient buf w h) ((y * w + x) * 4 + 3) 0 = 255 := by
  obtain ⟨_, hval⟩ := gridFold_pixel w h
    (fun b y x =>
      let idx : Nat := (y * w + x) * 4
      write4 b idx (x * 255 / w) (y * 255 / h) 128 255)
    (fun y x => x * 255 / w) (fun y x => y * 255 / h) (fun y x => 128) (fun y x => 255)
    (fun b y x => rfl) buf hsz
  intro y hy x hx
  obtain ⟨w0, w1, w2, w3⟩ := hval y hy x hx
  have hx255 : x * 255 / w < 256 := by
    rw [Nat.div_lt_iff_lt_mul (by omega)]
    omega
  have hy255 : y * 255 / h < 256 := by
    rw [Nat.div_lt_iff_lt_mul (by omega)]
    omega
  have e0 : bufRead (fillGradient buf w h) ((y * w + x) * 4) 0 = x * 255 / w % 256 := w0
  have e1 : bufRead (fillGradient buf w h) ((y * w + x) * 4 + 1) 0 = y * 255 / h % 256 := w1
  have e2 : bufRead (fillGradient buf w h) ((y * w + x) * 4 + 2) 0 = 128 % 256 := w2
  have e3 : bufRead (fillGradient buf w h) ((y * w + x) * 4 + 3) 0 = 255 % 256 := w3
  rw [e0, e1, e2, e3, Nat.mod_eq_of_lt hx255, Nat.mod_eq_of_lt hy255]
  exact ⟨rfl, rfl, by norm_num, by norm_num⟩

theorem noScale_rgb_pixel (src buf : Array Nat) (n : Nat) (hsz : n * 4 ≤ buf.size) :
    ∀ i, i < n →
      bufRead ((List.range n).foldl (fun b i =>
          write4 b (i * 4) (src.getD (i * 3) 0) (src.getD (i * 3 + 1) 0)
            (src.getD (i * 3 + 2) 0) 255) buf) (i * 4) 0 = src.getD (i * 3) 0 % 256 ∧
      bufRead ((List.range n).foldl (fun b i =>
          write4 b (i * 4) (src.getD (i * 3) 0) (src.getD (i * 3 + 1) 0)
            (src.getD (i * 3 + 2) 0) 255) buf) (i * 4 + 1) 0 = src.getD (i * 3 + 1) 0 % 256 ∧
      bufRead ((List.range n).foldl (fun b i =>
          write4 b (i * 4) (src.getD (i * 3) 0) (src.getD (i * 3 + 1) 0)
            (src.getD (i * 3 + 2) 0) 255) buf) (i * 4 + 2) 0 = src.getD (i * 3 + 2) 0 % 256 ∧
      bufRead ((List.range n).foldl (fun b i =>
          write4 b (i * 4) (src.getD (i * 3) 0) (src.getD (i * 3 + 1) 0)
            (src.getD (i * 3 + 2) 0) 255) buf) (i * 4 + 3) 0 = 255 := by
  obtain ⟨_, _, hval⟩ := rangeFold_write4
    (fun b i => write4 b (i * 4) (src.getD (i * 3) 0) (src.getD (i * 3 + 1) 0)
      (src.getD (i * 3 + 2) 0) 255)
    0 (fun i => src.getD (i * 3) 0) (fun i => src.getD (i * 3 + 1) 0)
    (fun i => src.getD (i * 3 + 2) 0) (fun i => 255)
    (fun b i => by rw [Nat.zero_add]) n buf
  intro i hi
  have h4 := hval i hi (by omega)
  simpa using h4

theorem nn_rgb_empty_pixel (buf : Array Nat) (sw sh bw bh : Nat) (hsz : buf.size = bw * bh * 4) :
    ∀ y, y < bh → ∀ x, x < bw →
      bufRead (convertRGBToRGBAWithNearestNeighbor #[] buf sw sh bw bh) ((y * bw + x) * 4) 0 = 0 ∧
      bufRead (convertRGBToRGBAWithNearestNeighbor #[] buf sw sh bw bh) ((y * bw + x) * 4 + 1) 0 = 0 ∧
      bufRead (convertRGBToRGBAWithNearestNeighbor #[] buf sw sh bw bh) ((y * bw + x) * 4 + 2) 0 = 0 ∧
      bufRead (convertRGBToRGBAWithNearestNeighbor #[] buf sw sh bw bh) ((y * bw + x) * 4 + 3) 0 = 255 := by
  obtain ⟨_, hval⟩ := gridFold_pixel bw bh
    (fun b y x =>
      let srcY : Int := min ((y * sh / bh : Nat) : Int) ((sh : Int) - 1)
      let rowOffset : Int := srcY * sw
      let srcX : Int := min ((x * sw / bw : Nat) : Int) ((sw : Int) - 1)
      let srcIdx : Int := (rowOffset + srcX) * 3
      let dstIdx : Nat := (y * bw + x) * 4
      write4 b dstIdx (bufGetD #[] srcIdx 0) (bufGetD #[] (srcIdx + 1) 0)
        (bufGetD #[] (srcIdx + 2) 0) 255)
    (fun y x => 0) (fun y x => 0) (fun y x => 0) (fun y x => 255)
    (fun b y x => by simp only [bufGetD_empty]) buf hsz
  intro y hy x hx
  obtain ⟨w0, w1, w2, w3⟩ := hval y hy x hx
  exact ⟨by simpa using w0, by simpa using w1, by simpa using w2, by simpa using w3⟩

theorem nn_rgba_empty_pixel (buf : Array Nat) (sw sh bw bh : Nat) (hsz : buf.size = bw * bh * 4) :
    ∀ y, y < bh → ∀ x, x < bw →
      bufRead (convertRGBAToRGBAWithNearestNeighbor #[] buf sw sh bw bh) ((y * bw + x) * 4) 0 = 0 ∧
      bufRead (convertRGBAToRGBAWithNearestNeighbor #[] buf sw sh bw bh) ((y * bw + x) * 4 + 1) 0 = 0 ∧
      bufRead (convertRGBAToRGBAWithNearestNeighbor #[] buf sw sh bw bh) ((y * bw + x) * 4 + 2) 0 = 0 ∧
      bufRead (convertRGBAToRGBAWithNearestNeighbor #[] buf sw sh bw bh) ((y * bw + x) * 4 + 3) 0 = 255 := by
  obtain ⟨_, hval⟩ := gridFold_pixel bw bh
    (fun b y x =>
      let srcY : Int := min ((y * sh / bh : Nat) : Int) ((sh : Int) - 1)
      let rowOffset : Int := srcY * sw
      let srcX : Int := min ((x * sw / bw : Nat) : Int) ((sw : Int) - 1)
      let srcIdx : Int := (rowOffset + srcX) * 4
      let dstIdx : Nat := (y * bw + x) * 4
      write4 b dstIdx (bufGetD #[] srcIdx 0) (bufGetD #[] (srcIdx + 1) 0)
        (bufGetD #[] (srcIdx + 2) 0) (bufGetD #[] (srcIdx + 3) 255))
    (fun y x => 0) (fun y x => 0) (fun y x => 0) (fun y x => 255)
    (fun b y x => by simp only [bufGetD_empty]) buf hsz
  intro y hy x hx
  obtain ⟨w0, w1, w2, w3⟩ := hval y hy x hx
  exact ⟨by simpa using w0, by simpa using w1, by simpa using w2, by simpa using w3⟩

theorem bl_rgb_empty_pixel (buf : Array Nat) (sw sh bw bh : Nat) (hsz : buf.size = bw * bh * 4) :
    ∀ y, y < bh → ∀ x, x < bw →
      bufRead (convertRGBToRGBAWithScaling #[] buf sw sh bw bh) ((y * bw + x) * 4) 0 = 0 ∧
      bufRead (convertRGBToRGBAWithScaling #[] buf sw sh bw bh) ((y * bw + x) * 4 + 1) 0 = 0 ∧
      bufRead (convertRGBToRGBAWithScaling #[] buf sw sh bw bh) ((y * bw + x) * 4 + 2) 0 = 0 ∧
      bufRead (convertRGBToRGBAWithScaling #[] buf sw sh bw bh) ((y * bw + x) * 4 + 3) 0 = 255 := by
  obtain ⟨_, hval⟩ := gridFold_pixel bw bh
    (fun b y x =>
      let srcY : ℚ := y * ((sh : ℚ) / bh)
      let y0 : Int := ⌊srcY⌋
      let y1 : Int := min (y0 + 1) ((sh : Int) - 1)
      let fy : ℚ := srcY - y0
      let srcX : ℚ := x * ((sw : ℚ) / bw)
      let x0 : Int := ⌊srcX⌋
      let x1 : Int := min (x0 + 1) ((sw : Int) - 1)
      let fx : ℚ := srcX - x0
      let idx00 : Int := (y0 * sw + x0) * 3
      let idx10 : Int := (y0 * sw + x1) * 3
      let idx01 : Int := (y1 * sw + x0) * 3
      let idx11 : Int := (y1 * sw + x1) * 3
      let w00 : ℚ := (1 - fx) * (1 - fy)
      let w10 : ℚ := fx * (1 - fy)
      let w01 : ℚ := (1 - fx) * fy
      let w11 : ℚ := fx * fy
      let dstIdx : Nat := (y * bw + x) * 4
      write4 b dstIdx
        (jsRound (w00 * (bufGetD #[] idx00 0 : ℚ) + w10 * (bufGetD #[] idx10 0 : ℚ) +
          w01 * (bufGetD #[] idx01 0 : ℚ) + w11 * (bufGetD #[] idx11 0 : ℚ)))
        (jsRound (w00 * (bufGetD #[] (idx00 + 1) 0 : ℚ) + w10 * (bufGetD #[] (idx10 + 1) 0 : ℚ) +
          w01 * (bufGetD #[] (idx01 + 1) 0 : ℚ) + w11 * (bufGetD #[] (idx11 + 1) 0 : ℚ)))
        (jsRound (w00 * (bufGetD #[] (idx00 + 2) 0 : ℚ) + w10 * (bufGetD #[] (idx10 + 2) 0 : ℚ) +
          w01 * (bufGetD #[] (idx01 + 2) 0 : ℚ) + w11 * (bufGetD #[] (idx11 + 2) 0 : ℚ)))
        255)
    (fun y x => 0) (fun y x => 0) (fun y x => 0) (fun y x => 255)
    (fun b y x => by
      simp only [bufGetD_empty, Nat.cast_zero, mul_zero, add_zero, jsRound_zero]) buf hsz
  intro y hy x hx
  obtain ⟨w0, w1, w2, w3⟩ := hval y hy x hx
  exact ⟨by simpa using w0, by simpa using w1, by simpa using w2, by simpa using w3⟩

theorem bl_rgba_empty_pixel (buf : Array Nat) (sw sh bw bh : Nat) (hsz : buf.size = bw * bh * 4) :
    ∀ y, y < bh → ∀ x, x < bw →
      bufRead (convertRGBAToRGBAWithScaling #[] buf sw sh bw bh) ((y * bw + x) * 4) 0 = 0 ∧
      bufRead (convertRGBAToRGBAWithScaling #[] buf sw sh bw bh) ((y * bw + x) * 4 + 1) 0 = 0 ∧
      bufRead (convertRGBAToRGBAWithScaling #[] buf sw sh bw bh) ((y * bw + x) * 4 + 2) 0 = 0 ∧
      bufRead (convertRGBAToRGBAWithScaling #[] buf sw sh bw bh) ((y * bw + x) * 4 + 3) 0 = 255 := by
  obtain ⟨_, hval⟩ := gridFold_pixel bw bh
    (fun b y x =>
      let srcY : ℚ := y * ((sh : ℚ) / bh)
      let y0 : Int := ⌊srcY⌋
      let y1 : Int := min (y0 + 1) ((sh : Int) - 1)
      let fy : ℚ := srcY - y0
      let srcX : ℚ := x * ((sw : ℚ) / bw)
      let x0 : Int := ⌊srcX⌋
      let x1 : Int := min (x0 + 1) ((sw : Int) - 1)
      let fx : ℚ := srcX - x0
      let idx00 : Int := (y0 * sw + x0) * 4
      let idx10 : Int := (y0 * sw + x1) * 4
      let idx01 : Int := (y1 * sw + x0) * 4
      let idx11 : Int := (y1 * sw + x1) * 4
      let w00 : ℚ := (1 - fx) * (1 - fy)
      let w10 : ℚ := fx * (1 - fy)
      let w01 : ℚ := (1 - fx) * fy
      let w11 : ℚ := fx * fy
      let dstIdx : Nat := (y * bw + x) * 4
      write4 b dstIdx
        (jsRound (w00 * (bufGetD #[] idx00 0 : ℚ) + w10 * (bufGetD #[] idx10 0 : ℚ) +
          w01 * (bufGetD #[] idx01 0 : ℚ) + w11 * (bufGetD #[] idx11 0 : ℚ)))
        (jsRound (w00 * (bufGetD #[] (idx00 + 1) 0 : ℚ) + w10 * (bufGetD #[] (idx10 + 1) 0 : ℚ) +
          w01 * (bufGetD #[] (idx01 + 1) 0 : ℚ) + w11 * (bufGetD #[] (idx11 + 1) 0 : ℚ)))
        (jsRound (w00 * (bufGetD #[] (idx00 + 2) 0 : ℚ) + w10 * (bufGetD #[] (idx10 + 2) 0 : ℚ) +
          w01 * (bufGetD #[] (idx01 + 2) 0 : ℚ) + w11 * (bufGetD #[] (idx11 + 2) 0 : ℚ)))
        (jsRound (w00 * (bufGetD #[] (idx00 + 3) 255 : ℚ) + w10 * (bufGetD #[] (idx10 + 3) 255 : ℚ) +
          w01 * (bufGetD #[] (idx01 + 3) 255 : ℚ) + w11 * (bufGetD #[] (idx11 + 3) 255 : ℚ))))
    (fun y x => 0) (fun y x => 0) (fun y x => 0) (fun y x => 255)
    (fun b y x => by
      simp only [bufGetD_empty, Nat.cast_zero, mul_zero, add_zero, jsRound_zero,
        jsRound_weights_255]) buf hsz
  intro y hy x hx
  obtain ⟨w0, w1, w2, w3⟩ := hval y hy x hx
  exact ⟨by simpa using w0, by simpa using w1, by simpa using w2, by simpa using w3⟩

theorem getD_empty (j d : Nat) : (#[] : Array Nat).getD j d = d := by
  simp [Array.getD]

theorem rgba_not_rgbfam :
    ¬(("RGBA" : String) = "RGB" ∨ ("RGBA" : String) = "MJPEG" ∨ ("RGBA" : String) = "YUYV") := by
  decide

/-! ### Format selector: order theory of the comparator -/

/-- The primary ranking key induced by the comparator: smaller key means
ranked earlier by the sort. -/
def rankKey (pref : ResolutionPref) (a : CameraFormat) : Int :=
  match pref with
  | .highest => -((a.width : Int) * a.height)
  | .lowest => (a.width : Int) * a.height
  | .medium => |(a.width : Int) * a.height - 1280 * 720|

theorem cmp_hi_iff (rA rB fA fB : Int) :
    ((if rB ≠ rA then rB - rA else fB - fA) ≤ 0) ↔ (-rA < -rB ∨ (-rA = -rB ∧ fB ≤ fA)) := by
  split_ifs with h <;> omega

theorem cmp_lo_iff (rA rB fA fB : Int) :
    ((if rA ≠ rB then rA - rB else fB - fA) ≤ 0) ↔ (rA < rB ∨ (rA = rB ∧ fB ≤ fA)) := by
  split_ifs with h <;> omega

theorem cmpLe_iff (pref : ResolutionPref) (a b : CameraFormat) :
    cmpLe pref a b ↔
      (rankKey pref a < rankKey pref b ∨
        (rankKey pref a = rankKey pref b ∧ (b.frameRate : Int) ≤ a.frameRate)) := by
  cases pref with
  | highest =>
    unfold cmpLe formatCompare rankKey
    simp only []
    exact cmp_hi_iff _ _ _ _
  | lowest =>
    unfold cmpLe formatCompare rankKey
    simp only []
    exact cmp_lo_iff _ _ _ _
  | medium =>
    unfold cmpLe formatCompare rankKey
    simp only []
    exact cmp_lo_iff _ _ _ _

instance cmpLe_isTotal (pref : ResolutionPref) : IsTotal CameraFormat (cmpLe pref) := by
  constructor
  intro a b
  rw [cmpLe_iff, cmpLe_iff]
  omega

instance cmpLe_isTrans (pref : ResolutionPref) : IsTrans CameraFormat (cmpLe pref) := by
  constructor
  intro a b c hab hbc
  rw [cmpLe_iff] at hab hbc ⊢
  omega

/-- Candidate set considered by the sort: the MJPEG subset when non-empty,
else the whole mode list (frame-converter.ts lines 309-310). -/
def candidateModes (formats : List CameraFormat) : List CameraFormat :=
  let mjpegFormats := formats.filter (fun f => f.format == "MJPEG")
  if mjpegFormats.length > 0 then mjpegFormats else formats

theorem candidateModes_subset (formats : List CameraFormat) :
    candidateModes formats ⊆ formats := by
  unfold candidateModes
  simp only []
  split
  · exact fun x hx => (List.mem_filter.mp hx).1
  · exact fun _ h => h

theorem candidateModes_ne_nil {formats : List CameraFormat} (hne : formats ≠ []) :
    candidateModes formats ≠ [] := by
  unfold candidateModes
  simp only []
  split
  · next h => intro hc; rw [hc] at h; simp at h
  · exact hne

theorem candidateModes_of_mjpeg {formats : List CameraFormat}
    (hm : ∃ m ∈ formats, m.format = "MJPEG") :
    candidateModes formats = formats.filter (fun f => f.format == "MJPEG") := by
  obtain ⟨m, hmf, hfmt⟩ := hm
  have hmem : m ∈ formats.filter (fun f => f.format == "MJPEG") :=
    List.mem_filter.mpr ⟨hmf, by simp [hfmt]⟩
  unfold candidateModes
  simp only []
  rw [if_pos (List.length_pos.mpr (List.ne_nil_of_mem hmem))]

theorem selectBest_eq_head (formats : List CameraFormat) (pref : ResolutionPref)
    (hlen : ¬formats.length = 0) :
    selectBestCameraFormat formats pref =
      ((candidateModes formats).insertionSort (cmpLe pref)).head? := by
  unfold selectBestCameraFormat candidateModes
  simp only []
  rw [if_neg hlen]

/-- The selector returns the head of the stable sort of the candidate set,
which is a comparator-minimal element of that set. -/
theorem selectBest_min (formats : List CameraFormat) (pref : ResolutionPref)
    (hne : formats ≠ []) :
    ∃ r, selectBestCameraFormat formats pref = some r ∧ r ∈ candidateModes formats ∧
      ∀ m ∈ candidateModes formats, cmpLe pref r m := by
  have hlen : ¬formats.length = 0 := by
    simpa [List.length_eq_zero] using hne
  have hcne : candidateModes formats ≠ [] := candidateModes_ne_nil hne
  have hperm := List.perm_insertionSort (cmpLe pref) (candidateModes formats)
  have hsorted := List.sorted_insertionSort (cmpLe pref) (candidateModes formats)
  have hLne : (candidateModes formats).insertionSort (cmpLe pref) ≠ [] := by
    intro h0
    have hl := hperm.length_eq
    rw [h0] at hl
    exact hcne (List.length_eq_zero.mp hl.symm)
  obtain ⟨r, t, hrt⟩ := List.exists_cons_of_ne_nil hLne
  refine ⟨r, ?_, ?_, ?_⟩
  · rw [selectBest_eq_head formats pref hlen, hrt]
    rfl
  · exact hperm.mem_iff.mp (by rw [hrt]; exact List.mem_cons_self r t)
  · intro m hm
    have hm' : m ∈ (candidateModes formats).insertionSort (cmpLe pref) := hperm.mem_iff.mpr hm
    rw [hrt] at hm'
    rcases List.mem_cons.mp hm' with rfl | hmt
    · rcases (cmpLe_isTotal pref).total m m with h | h <;> exact h
    · exact List.rel_of_sorted_cons (hrt ▸ hsorted) m hmt

/-- The ranking stated by the specification (spec.md 4.1): `specRankLe pref r m`
says `r` ranks at least as high as `m`: Highest orders descending by
`width*height`, Lowest ascending, Medium ascending by distance from
`1280*720`, with ties always broken by descending `frameRate`. -/
def specRankLe (pref : ResolutionPref) (r m : CameraFormat) : Prop :=
  match pref with
  | .highest => m.width * m.height < r.width * r.height ∨
      (m.width * m.height = r.width * r.height ∧ m.frameRate ≤ r.frameRate)
  | .lowest => r.width * r.height < m.width * m.height ∨
      (r.width * r.height = m.width * m.height ∧ m.frameRate ≤ r.frameRate)
  | .medium => |(r.width : Int) * r.height - 1280 * 720| < |(m.width : Int) * m.height - 1280 * 720| ∨
      (|(r.width : Int) * r.height - 1280 * 720| = |(m.width : Int) * m.height - 1280 * 720| ∧
        m.frameRate ≤ r.frameRate)

theorem cmpLe_iff_specRankLe (pref : ResolutionPref) (r m : CameraFormat) :
    cmpLe pref r m ↔ specRankLe pref r m := by
  rw [cmpLe_iff]
  cases pref with
  | highest =>
    unfold rankKey specRankLe
    simp only []
    zify
    omega
  | lowest =>
    unfold rankKey specRankLe
    simp only []
    zify
  | medium =>
    unfold rankKey specRankLe
    simp only []
    zify

end CameraOverlay

namespace CameraOverlay

/-- C1: for every call to `convertFrameToRGBABuffer` with target dimensions
`bw`, `bh` and any source buffer, dimensions, format string and quality
setting, the returned buffer has length exactly `bw * bh * 4` bytes. -/
theorem C1_resample_size (frame : FrameData) (bw bh : Nat) (q : Quality) :
    (convertFrameToRGBABuffer frame bw bh q).size = bw * bh * 4 :=
  size_convertFrameToRGBABuffer frame bw bh q

/-- C8: for every RGB source whose dimensions equal the target dimensions
(and whose buffer holds exactly `w * h * 3` bytes), the fast path copies
each source triplet to the output pixel at the same index and forces alpha
to 255. -/
theorem C8_fast_path_identity (src : Array Nat) (w h : Nat) (q : Quality) (i : Nat)
    (hlen : src.size = w * h * 3) (hbytes : ∀ v ∈ src, v < 256) (hi : i < w * h) :
    bufRead (convertFrameToRGBABuffer ⟨src, w, h, "RGB"⟩ w h q) (i * 4) 0 = src.getD (i * 3) 0 ∧
    bufRead (convertFrameToRGBABuffer ⟨src, w, h, "RGB"⟩ w h q) (i * 4 + 1) 0 = src.getD (i * 3 + 1) 0 ∧
    bufRead (convertFrameToRGBABuffer ⟨src, w, h, "RGB"⟩ w h q) (i * 4 + 2) 0 = src.getD (i * 3 + 2) 0 ∧
    bufRead (convertFrameToRGBABuffer ⟨src, w, h, "RGB"⟩ w h q) (i * 4 + 3) 0 = 255 := by
  have hconv : convertFrameToRGBABuffer ⟨src, w, h, "RGB"⟩ w h q =
      (List.range (w * h)).foldl (fun b i =>
        write4 b (i * 4) (src.getD (i * 3) 0) (src.getD (i * 3 + 1) 0)
          (src.getD (i * 3 + 2) 0) 255) (Array.mkArray (w * h * 4) 0) := by
    rw [convert_dims_match ⟨src, w, h, "RGB"⟩ w h q rfl rfl]
    exact noScale_rgbfam _ _ (Or.inl rfl)
  obtain ⟨e0, e1, e2, e3⟩ := noScale_rgb_pixel src (Array.mkArray (w * h * 4) 0) (w * h)
    (by simp) i hi
  rw [hconv]
  refine ⟨?_, ?_, ?_, ?_⟩
  · rw [e0]; exact getD_mod_of_bytes hbytes (by omega)
  · rw [e1]; exact getD_mod_of_bytes hbytes (by omega)
  · rw [e2]; exact getD_mod_of_bytes hbytes (by omega)
  · exact e3

/-- C8 witness: concrete 1x1 RGB frame, fast path copies the triplet. -/
theorem C8_fast_path_identity_witness :
    bufRead (convertFrameToRGBABuffer ⟨#[10, 20, 30], 1, 1, "RGB"⟩ 1 1 .fast) (0 * 4) 0 =
      (#[10, 20, 30] : Array Nat).getD (0 * 3) 0 ∧
    bufRead (convertFrameToRGBABuffer ⟨#[10, 20, 30], 1, 1, "RGB"⟩ 1 1 .fast) (0 * 4 + 1) 0 =
      (#[10, 20, 30] : Array Nat).getD (0 * 3 + 1) 0 ∧
    bufRead (convertFrameToRGBABuffer ⟨#[10, 20, 30], 1, 1, "RGB"⟩ 1 1 .fast) (0 * 4 + 2) 0 =
      (#[10, 20, 30] : Array Nat).getD (0 * 3 + 2) 0 ∧
    bufRead (convertFrameToRGBABuffer ⟨#[10, 20, 30], 1, 1, "RGB"⟩ 1 1 .fast) (0 * 4 + 3) 0 = 255 :=
  C8_fast_path_identity #[10, 20, 30] 1 1 .fast 0 (by decide)
    (by
      intro v hv
      simp [Array.mem_def] at hv
      rcases hv with rfl | rfl | rfl <;> norm_num)
    (by decide)

/-- C9: the converter is total: it always returns a fully written buffer of
`bw * bh * 4` bytes, and when the source buffer is too short the
out-of-range reads default to 0 (255 for the alpha component in the RGBA
sampling paths): with an empty source buffer every output pixel of the RGB
paths, and of the RGBA sampling paths, is (0, 0, 0, 255). -/
theorem C9_total_and_default_reads :
    (∀ (frame : FrameData) (bw bh : Nat) (q : Quality),
      (convertFrameToRGBABuffer frame bw bh q).size = bw * bh * 4) ∧
    (∀ (w h bw bh : Nat) (q : Quality) (y x : Nat), y < bh → x < bw →
      bufRead (convertFrameToRGBABuffer ⟨#[], w, h, "RGB"⟩ bw bh q) ((y * bw + x) * 4) 0 = 0 ∧
      bufRead (convertFrameToRGBABuffer ⟨#[], w, h, "RGB"⟩ bw bh q) ((y * bw + x) * 4 + 1) 0 = 0 ∧
      bufRead (convertFrameToRGBABuffer ⟨#[], w, h, "RGB"⟩ bw bh q) ((y * bw + x) * 4 + 2) 0 = 0 ∧
      bufRead (convertFrameToRGBABuffer ⟨#[], w, h, "RGB"⟩ bw bh q) ((y * bw + x) * 4 + 3) 0 = 255) ∧
    (∀ (w h bw bh : Nat) (q : Quality) (y x : Nat), ¬(w = bw ∧ h = bh) → y < bh → x < bw →
      bufRead (convertFrameToRGBABuffer ⟨#[], w, h, "RGBA"⟩ bw bh q) ((y * bw + x) * 4) 0 = 0 ∧
      bufRead (convertFrameToRGBABuffer ⟨#[], w, h, "RGBA"⟩ bw bh q) ((y * bw + x) * 4 + 1) 0 = 0 ∧
      bufRead (convertFrameToRGBABuffer ⟨#[], w, h, "RGBA"⟩ bw bh q) ((y * bw + x) * 4 + 2) 0 = 0 ∧
      bufRead (convertFrameToRGBABuffer ⟨#[], w, h, "RGBA"⟩ bw bh q) ((y * bw + x) * 4 + 3) 0 = 255) := by
  refine ⟨size_convertFrameToRGBABuffer, ?_, ?_⟩
  · intro w h bw bh q y x hy hx
    by_cases hd : w = bw ∧ h = bh
    · obtain ⟨hw, hh⟩ := hd
      subst hw
      subst hh
      have hconv : convertFrameToRGBABuffer ⟨#[], w, h, "RGB"⟩ w h q =
          (List.range (w * h)).foldl (fun b i =>
            write4 b (i * 4) ((#[] : Array Nat).getD (i * 3) 0) ((#[] : Array Nat).getD (i * 3 + 1) 0)
              ((#[] : Array Nat).getD (i * 3 + 2) 0) 255) (Array.mkArray (w * h * 4) 0) := by
        rw [convert_dims_match ⟨#[], w, h, "RGB"⟩ w h q rfl rfl]
        exact noScale_rgbfam _ _ (Or.inl rfl)
      obtain ⟨e0, e1, e2, e3⟩ := noScale_rgb_pixel #[] (Array.mkArray (w * h * 4) 0) (w * h)
        (by simp) (y * w + x) (pixel_lt_total hx hy)
      rw [hconv]
      rw [e0, e1, e2, e3, getD_empty, getD_empty, getD_empty]
      exact ⟨rfl, rfl, rfl, rfl⟩
    · cases q with
      | fast =>
        rw [convert_dims_ne_rgbfam_fast ⟨#[], w, h, "RGB"⟩ bw bh hd (Or.inl rfl)]
        obtain ⟨e0, e1, e2, e3⟩ := nn_rgb_empty_pixel (Array.mkArray (bw * bh * 4) 0) w h bw bh
          (by simp) y hy x hx
        exact ⟨e0, e1, e2, e3⟩
      | quality =>
        rw [convert_dims_ne_rgbfam_quality ⟨#[], w, h, "RGB"⟩ bw bh hd (Or.inl rfl)]
        obtain ⟨e0, e1, e2, e3⟩ := bl_rgb_empty_pixel (Array.mkArray (bw * bh * 4) 0) w h bw bh
          (by simp) y hy x hx
        exact ⟨e0, e1, e2, e3⟩
  · intro w h bw bh q y x hd hy hx
    cases q with
    | fast =>
      rw [convert_dims_ne_rgba_fast ⟨#[], w, h, "RGBA"⟩ bw bh hd rgba_not_rgbfam rfl]
      obtain ⟨e0, e1, e2, e3⟩ := nn_rgba_empty_pixel (Array.mkArray (bw * bh * 4) 0) w h bw bh
        (by simp) y hy x hx
      exact ⟨e0, e1, e2, e3⟩
    | quality =>
      rw [convert_dims_ne_rgba_quality ⟨#[], w, h, "RGBA"⟩ bw bh hd rgba_not_rgbfam rfl]
      obtain ⟨e0, e1, e2, e3⟩ := bl_rgba_empty_pixel (Array.mkArray (bw * bh * 4) 0) w h bw bh
        (by simp) y hy x hx
      exact ⟨e0, e1, e2, e3⟩

/-- C9 witness: concrete empty RGB source scaled 5x5 to 2x2, pixel (1,1). -/
theorem C9_total_and_default_reads_witness :
    bufRead (convertFrameToRGBABuffer ⟨#[], 5, 5, "RGB"⟩ 2 2 .fast) ((1 * 2 + 1) * 4) 0 = 0 ∧
    bufRead (convertFrameToRGBABuffer ⟨#[], 5, 5, "RGB"⟩ 2 2 .fast) ((1 * 2 + 1) * 4 + 1) 0 = 0 ∧
    bufRead (convertFrameToRGBABuffer ⟨#[], 5, 5, "RGB"⟩ 2 2 .fast) ((1 * 2 + 1) * 4 + 2) 0 = 0 ∧
    bufRead (convertFrameToRGBABuffer ⟨#[], 5, 5, "RGB"⟩ 2 2 .fast) ((1 * 2 + 1) * 4 + 3) 0 = 255 :=
  C9_total_and_default_reads.2.1 5 5 2 2 .fast 1 1 (by decide) (by decide)

/-- C10: the converter treats the format strings MJPEG and YUYV exactly as
RGB, and emits the diagnostic gradient
(`R = x * 255 / bw`, `G = y * 255 / bh`, `B = 128`, `A = 255`)
exactly for format strings outside the set RGB, RGBA, MJPEG, YUYV. -/
theorem C10_dispatch_gradient :
    (∀ (data : Array Nat) (w h bw bh : Nat) (q : Quality),
      convertFrameToRGBABuffer ⟨data, w, h, "MJPEG"⟩ bw bh q =
        convertFrameToRGBABuffer ⟨data, w, h, "RGB"⟩ bw bh q ∧
      convertFrameToRGBABuffer ⟨data, w, h, "YUYV"⟩ bw bh q =
        convertFrameToRGBABuffer ⟨data, w, h, "RGB"⟩ bw bh q) ∧
    (∀ (frame : FrameData) (bw bh : Nat) (q : Quality),
      frame.format ≠ "RGB" → frame.format ≠ "RGBA" → frame.format ≠ "MJPEG" → frame.format ≠ "YUYV" →
      ∀ y, y < bh → ∀ x, x < bw →
        bufRead (convertFrameToRGBABuffer frame bw bh q) ((y * bw + x) * 4) 0 = x * 255 / bw ∧
        bufRead (convertFrameToRGBABuffer frame bw bh q) ((y * bw + x) * 4 + 1) 0 = y * 255 / bh ∧
        bufRead (convertFrameToRGBABuffer frame bw bh q) ((y * bw + x) * 4 + 2) 0 = 128 ∧
        bufRead (convertFrameToRGBABuffer frame bw bh q) ((y * bw + x) * 4 + 3) 0 = 255) := by
  constructor
  · intro data w h bw bh q
    constructor
    · by_cases hd : w = bw ∧ h = bh
      · rw [convert_dims_match ⟨data, w, h, "MJPEG"⟩ bw bh q hd.1 hd.2,
          convert_dims_match ⟨data, w, h, "RGB"⟩ bw bh q hd.1 hd.2,
          noScale_rgbfam ⟨data, w, h, "MJPEG"⟩ _ (Or.inr (Or.inl rfl)),
          noScale_rgbfam ⟨data, w, h, "RGB"⟩ _ (Or.inl rfl)]
      · cases q with
        | fast =>
          rw [convert_dims_ne_rgbfam_fast ⟨data, w, h, "MJPEG"⟩ bw bh hd (Or.inr (Or.inl rfl)),
            convert_dims_ne_rgbfam_fast ⟨data, w, h, "RGB"⟩ bw bh hd (Or.inl rfl)]
        | quality =>
          rw [convert_dims_ne_rgbfam_quality ⟨data, w, h, "MJPEG"⟩ bw bh hd (Or.inr (Or.inl rfl)),
            convert_dims_ne_rgbfam_quality ⟨data, w, h, "RGB"⟩ bw bh hd (Or.inl rfl)]
    · by_cases hd : w = bw ∧ h = bh
      · rw [convert_dims_match ⟨data, w, h, "YUYV"⟩ bw bh q hd.1 hd.2,
          convert_dims_match ⟨data, w, h, "RGB"⟩ bw bh q hd.1 hd.2,
          noScale_rgbfam ⟨data, w, h, "YUYV"⟩ _ (Or.inr (Or.inr rfl)),
          noScale_rgbfam ⟨data, w, h, "RGB"⟩ _ (Or.inl rfl)]
      · cases q with
        | fast =>
          rw [convert_dims_ne_rgbfam_fast ⟨data, w, h, "YUYV"⟩ bw bh hd (Or.inr (Or.inr rfl)),
            convert_dims_ne_rgbfam_fast ⟨data, w, h, "RGB"⟩ bw bh hd (Or.inl rfl)]
        | quality =>
          rw [convert_dims_ne_rgbfam_quality ⟨data, w, h, "YUYV"⟩ bw bh hd (Or.inr (Or.inr rfl)),
            convert_dims_ne_rgbfam_quality ⟨data, w, h, "RGB"⟩ bw bh hd (Or.inl rfl)]
  · intro frame bw bh q h1 h2 h3 h4 y hy x hx
    rw [convert_unknown_grad frame bw bh q (by tauto) h2]
    exact fillGradient_pixel (Array.mkArray (bw * bh * 4) 0) bw bh (by simp) y hy x hx

/-- C10 witness: concrete unknown format GRAY produces the gradient at
pixel (0,1) of a 2x2 target. -/
theorem C10_dispatch_gradient_witness :
    bufRead (convertFrameToRGBABuffer ⟨#[], 3, 3, "GRAY"⟩ 2 2 .fast) ((0 * 2 + 1) * 4) 0 = 1 * 255 / 2 ∧
    bufRead (convertFrameToRGBABuffer ⟨#[], 3, 3, "GRAY"⟩ 2 2 .fast) ((0 * 2 + 1) * 4 + 1) 0 = 0 * 255 / 2 ∧
    bufRead (convertFrameToRGBABuffer ⟨#[], 3, 3, "GRAY"⟩ 2 2 .fast) ((0 * 2 + 1) * 4 + 2) 0 = 128 ∧
    bufRead (convertFrameToRGBABuffer ⟨#[], 3, 3, "GRAY"⟩ 2 2 .fast) ((0 * 2 + 1) * 4 + 3) 0 = 255 :=
  C10_dispatch_gradient.2 ⟨#[], 3, 3, "GRAY"⟩ 2 2 .fast (by decide) (by decide) (by decide)
    (by decide) 0 (by decide) 1 (by decide)

/-- C2: whenever the mode list contains at least one MJPEG mode,
`selectBestCameraFormat` returns a mode from the MJPEG subset (so its
encoding is MJPEG), for every preference. -/
theorem C2_mjpeg_preferred (formats : List CameraFormat) (pref : ResolutionPref)
    (hm : ∃ m ∈ formats, m.format = "MJPEG") :
    ∃ r, selectBestCameraFormat formats pref = some r ∧
      r ∈ formats.filter (fun f => f.format == "MJPEG") ∧ r.format = "MJPEG" := by
  have hne : formats ≠ [] := by
    rintro rfl
    simp at hm
  obtain ⟨r, hsel, hmem, _⟩ := selectBest_min formats pref hne
  rw [candidateModes_of_mjpeg hm] at hmem
  refine ⟨r, hsel, hmem, ?_⟩
  have := (List.mem_filter.mp hmem).2
  simpa using this

/-- C2 witness: a singleton MJPEG mode list. -/
theorem C2_mjpeg_preferred_witness :
    ∃ r, selectBestCameraFormat [⟨"MJPEG", 640, 480, 30⟩] .highest = some r ∧
      r ∈ [(⟨"MJPEG", 640, 480, 30⟩ : CameraFormat)].filter (fun f => f.format == "MJPEG") ∧
      r.format = "MJPEG" :=
  C2_mjpeg_preferred [⟨"MJPEG", 640, 480, 30⟩] .highest
    ⟨⟨"MJPEG", 640, 480, 30⟩, by simp, rfl⟩

/-- C3: on every non-empty candidate set the selector returns a mode that
ranks at least as high as every candidate under the stated ranking
(descending resolution for Highest, ascending for Lowest, distance from
720p for Medium, ties broken by descending frame rate), and on the concrete
example list Highest returns the MJPEG 1920x1080@30 mode and Lowest the
MJPEG 640x480@60 mode. -/
theorem C3_top_ranked :
    (∀ (formats : List CameraFormat) (pref : ResolutionPref), formats ≠ [] →
      ∃ r, selectBestCameraFormat formats pref = some r ∧ r ∈ candidateModes formats ∧
        ∀ m ∈ candidateModes formats, specRankLe pref r m) ∧
    selectBestCameraFormat
      [⟨"MJPEG", 1920, 1080, 30⟩, ⟨"MJPEG", 640, 480, 60⟩, ⟨"YUYV", 1920, 1080, 30⟩] .highest =
      some ⟨"MJPEG", 1920, 1080, 30⟩ ∧
    selectBestCameraFormat
      [⟨"MJPEG", 1920, 1080, 30⟩, ⟨"MJPEG", 640, 480, 60⟩, ⟨"YUYV", 1920, 1080, 30⟩] .lowest =
      some ⟨"MJPEG", 640, 480, 60⟩ := by
  refine ⟨?_, by decide, by decide⟩
  intro formats pref hne
  obtain ⟨r, hsel, hmem, hmin⟩ := selectBest_min formats pref hne
  exact ⟨r, hsel, hmem, fun m hm => (cmpLe_iff_specRankLe pref r m).mp (hmin m hm)⟩

/-- C3 witness: the universally quantified part applied to a concrete
singleton list. -/
theorem C3_top_ranked_witness :
    ∃ r, selectBestCameraFormat [⟨"YUYV", 640, 480, 30⟩] .medium = some r ∧
      r ∈ candidateModes [⟨"YUYV", 640, 480, 30⟩] ∧
      ∀ m ∈ candidateModes [⟨"YUYV", 640, 480, 30⟩], specRankLe .medium r m :=
  C3_top_ranked.1 [⟨"YUYV", 640, 480, 30⟩] .medium (by decide)

/-- C4: the selector returns none exactly for the empty mode list, and on a
non-empty list it returns an element of the input list, lying in the MJPEG
subset whenever that subset is non-empty. -/
theorem C4_none_iff_empty :
    (∀ (formats : List CameraFormat) (pref : ResolutionPref),
      (selectBestCameraFormat formats pref = none ↔ formats = [])) ∧
    (∀ (formats : List CameraFormat) (pref : ResolutionPref), formats ≠ [] →
      ∃ r, selectBestCameraFormat formats pref = some r ∧ r ∈ formats ∧
        (formats.filter (fun f => f.format == "MJPEG") ≠ [] →
          r ∈ formats.filter (fun f => f.format == "MJPEG"))) := by
  constructor
  · intro formats pref
    constructor
    · intro h0
      by_contra hne
      obtain ⟨r, hsel, _⟩ := selectBest_min formats pref hne
      rw [hsel] at h0
      exact Option.noConfusion h0
    · rintro rfl
      rfl
  · intro formats pref hne
    obtain ⟨r, hsel, hmem, hmin⟩ := selectBest_min formats pref hne
    refine ⟨r, hsel, candidateModes_subset formats hmem, ?_⟩
    intro hfne
    have hm : ∃ m ∈ formats, m.format = "MJPEG" := by
      obtain ⟨m, t, hmt⟩ := List.exists_cons_of_ne_nil hfne
      have hmmem : m ∈ formats.filter (fun f => f.format == "MJPEG") := by
        rw [hmt]
        exact List.mem_cons_self m t
      obtain ⟨h1, h2⟩ := List.mem_filter.mp hmmem
      exact ⟨m, h1, by simpa using h2⟩
    rw [candidateModes_of_mjpeg hm] at hmem
    exact hmem

/-- C4 witness: a concrete two-element list with one MJPEG mode. -/
theorem C4_none_iff_empty_witness :
    ∃ r, selectBestCameraFormat [⟨"YUYV", 640, 480, 30⟩, ⟨"MJPEG", 1920, 1080, 30⟩] .highest = some r ∧
      r ∈ [(⟨"YUYV", 640, 480, 30⟩ : CameraFormat), ⟨"MJPEG", 1920, 1080, 30⟩] ∧
      ([(⟨"YUYV", 640, 480, 30⟩ : CameraFormat), ⟨"MJPEG", 1920, 1080, 30⟩].filter
          (fun f => f.format == "MJPEG") ≠ [] →
        r ∈ [(⟨"YUYV", 640, 480, 30⟩ : CameraFormat), ⟨"MJPEG", 1920, 1080, 30⟩].filter
          (fun f => f.format == "MJPEG")) :=
  C4_none_iff_empty.2 [⟨"YUYV", 640, 480, 30⟩, ⟨"MJPEG", 1920, 1080, 30⟩] .highest (by decide)

/-- C7 counterexample: the claim that the input list is unchanged after
every call is false: with no MJPEG mode present, `Array.prototype.sort`
sorts the caller supplied array in place, so this two-element YUYV list is
reordered by the call. -/
theorem C7_counterexample :
    (selectBestCameraFormatRun [⟨"YUYV", 1920, 1080, 30⟩, ⟨"YUYV", 640, 480, 30⟩] .lowest).2 ≠
      [⟨"YUYV", 1920, 1080, 30⟩, ⟨"YUYV", 640, 480, 30⟩] := by
  decide

/-- C7 amended: the selector result is a pure function of the inputs and
the elements of the input array are preserved up to permutation, but the
call is not free of side effects on the input array: its order is
untouched whenever an MJPEG mode is present (the sort then runs on the
fresh filtered array), while with no MJPEG mode present the input array is
sorted in place and may be reordered. -/
theorem C7_purity_amended (formats : List CameraFormat) (pref : ResolutionPref) :
    (selectBestCameraFormatRun formats pref).1 = selectBestCameraFormat formats pref ∧
    ((selectBestCameraFormatRun formats pref).2).Perm formats ∧
    ((∃ m ∈ formats, m.format = "MJPEG") → (selectBestCameraFormatRun formats pref).2 = formats) := by
  refine ⟨?_, ?_, ?_⟩
  · unfold selectBestCameraFormatRun selectBestCameraFormat
    simp only []
    split_ifs <;> rfl
  · unfold selectBestCameraFormatRun
    simp only []
    split_ifs
    · exact List.Perm.refl _
    · exact List.Perm.refl _
    · exact List.perm_insertionSort _ _
  · intro hm
    unfold selectBestCameraFormatRun
    simp only []
    split_ifs with h1 h2
    · rfl
    · rfl
    · exfalso
      obtain ⟨m, hmf, hfmt⟩ := hm
      have hmem : m ∈ formats.filter (fun f => f.format == "MJPEG") :=
        List.mem_filter.mpr ⟨hmf, by simp [hfmt]⟩
      exact h2 (List.length_pos.mpr (List.ne_nil_of_mem hmem))

/-- C7 witness: with an MJPEG mode present the input list is unchanged. -/
theorem C7_purity_amended_witness :
    (selectBestCameraFormatRun [⟨"MJPEG", 640, 480, 30⟩] .highest).2 =
      [⟨"MJPEG", 640, 480, 30⟩] :=
  (C7_purity_amended [⟨"MJPEG", 640, 480, 30⟩] .highest).2.2
    ⟨⟨"MJPEG", 640, 480, 30⟩, by simp, rfl⟩

/-- C5 counterexample: a per-cycle decode error does not increment
`consecutiveErrors`: on a streaming state with 3 accumulated errors, a
cycle that receives a 5-byte frame labelled MJPEG (too short to decode, so
the decode fails) resets the counter to 0 instead of incrementing it to 4,
because the reset happens on frame arrival and the decode exception is
swallowed by the inner catch. -/
theorem C5_counterexample :
    (captureFrame ⟨true, true, 0, 3, false, false, true⟩
        ⟨some true, .frame [1, 2, 3, 4, 5] 2 2, some "MJPEG", .throws⟩).1.consecutiveErrors ≠
      3 + 1 := by
  decide

/-- C5 amended: only capture errors (the native capture call throwing)
increment `consecutiveErrors` by one; every cycle that receives a
non-empty frame resets the counter to 0, even when decoding then fails
(decode errors are caught internally and never counted); when the counter
reaches the threshold 10 the stream stops (`isStreaming` becomes false, it
stays streaming below the threshold), and a loop iteration that finds
streaming stopped performs no capture and schedules no further cycle. -/
theorem C5_error_counting_amended (s : CaptureState) (inp : CycleInput)
    (hd : s.disposed = false) (hp : s.captureInProgress = false)
    (hc : s.hasCamera = true) (hs : s.isStreaming = true) (hcb : s.hasCallback = true)
    (ho : inp.streamOpen = some true) :
    (inp.fetch = .throws →
      (captureFrame s inp).1.consecutiveErrors = s.consecutiveErrors + 1 ∧
      (10 ≤ s.consecutiveErrors + 1 → (captureFrame s inp).1.isStreaming = false) ∧
      (s.consecutiveErrors + 1 < 10 → (captureFrame s inp).1.isStreaming = true)) ∧
    (∀ data w h, inp.fetch = .frame data w h → data.length ≠ 0 →
      (captureFrame s inp).1.consecutiveErrors = 0) ∧
    (∀ (s2 : CaptureState) (inp2 : CycleInput), s2.isStreaming = false →
      captureLoopStep s2 inp2 = (s2, none, false)) := by
  refine ⟨?_, ?_, ?_⟩
  · intro hf
    by_cases h10 : 10 ≤ s.consecutiveErrors + 1
    · simp [captureFrame, hd, hp, hc, hs, hcb, ho, hf, maxConsecutiveErrors, h10]
    · simp [captureFrame, hd, hp, hc, hs, hcb, ho, hf, maxConsecutiveErrors, h10]
  · intro data w h hf h0
    simp [captureFrame, hd, hp, hc, hs, hcb, ho, hf, h0]
  · intro s2 inp2 h
    simp [captureLoopStep, h]

/-- C5 witness: a capture error at error count 9 reaches the threshold and
stops the stream. -/
theorem C5_error_counting_amended_witness :
    (captureFrame ⟨true, true, 0, 9, false, false, true⟩
        ⟨some true, .throws, none, .throws⟩).1.consecutiveErrors = 9 + 1 ∧
    (captureFrame ⟨true, true, 0, 9, false, false, true⟩
        ⟨some true, .throws, none, .throws⟩).1.isStreaming = false :=
  ⟨((C5_error_counting_amended ⟨true, true, 0, 9, false, false, true⟩
      ⟨some true, .throws, none, .throws⟩ rfl rfl rfl rfl rfl rfl).1 rfl).1,
   ((C5_error_counting_amended ⟨true, true, 0, 9, false, false, true⟩
      ⟨some true, .throws, none, .throws⟩ rfl rfl rfl rfl rfl rfl).1 rfl).2.1 (by decide)⟩

/-- C6 counterexample: a cycle whose MJPEG decode fails (5-byte frame,
below the 10-byte minimum) is not skipped: a frame is still delivered to
the frame callback. -/
theorem C6_counterexample :
    (captureFrame ⟨true, true, 0, 0, false, false, true⟩
        ⟨some true, .frame [1, 2, 3, 4, 5] 2 2, some "MJPEG", .throws⟩).2 ≠ none := by
  decide

/-- C6 amended: when the frame is labelled MJPEG (and not reclassified by
the byte-length sanity override) and MJPEG decoding fails — the byte
length is below the 10-byte minimum, the decoder throws, or the decoder
returns no buffer — the cycle still delivers a frame to the callback: the
raw undecoded bytes with the frame dimensions and the format label MJPEG
(and the error counter stays reset at 0). -/
theorem C6_decode_failure_delivers (s : CaptureState) (inp : CycleInput)
    (hd : s.disposed = false) (hp : s.captureInProgress = false)
    (hc : s.hasCamera = true) (hs : s.isStreaming = true) (hcb : s.hasCallback = true)
    (ho : inp.streamOpen = some true) (hfmt : inp.camFormat = some "MJPEG")
    (data : List Nat) (w h : Nat) (hf : inp.fetch = .frame data w h)
    (h0 : data.length ≠ 0) (h4 : data.length ≠ w * h * 4) (h3 : data.length ≠ w * h * 3)
    (hfail : data.length < 10 ∨ inp.decode = .throws ∨ inp.decode = .nullResult) :
    (captureFrame s inp).2 = some ⟨data, w, h, "MJPEG"⟩ ∧
    (captureFrame s inp).1.consecutiveErrors = 0 := by
  rcases hfail with hlen | hdec | hdec
  · simp [captureFrame, hd, hp, hc, hs, hcb, ho, hf, hfmt, h0, h4, h3, hlen]
  · by_cases hlen : data.length < 10
    · simp [captureFrame, hd, hp, hc, hs, hcb, ho, hf, hfmt, h0, h4, h3, hlen]
    · simp [captureFrame, hd, hp, hc, hs, hcb, ho, hf, hfmt, h0, h4, h3, hlen, hdec]
  · by_cases hlen : data.length < 10
    · simp [captureFrame, hd, hp, hc, hs, hcb, ho, hf, hfmt, h0, h4, h3, hlen]
    · simp [captureFrame, hd, hp, hc, hs, hcb, ho, hf, hfmt, h0, h4, h3, hlen, hdec]

/-- C6 witness: concrete decode-throwing cycle with an 11-byte MJPEG frame
delivers the raw frame. -/
theorem C6_decode_failure_delivers_witness :
    (captureFrame ⟨true, true, 0, 0, false, false, true⟩
        ⟨some true, .frame [1, 2, 3, 4, 5, 6, 7, 8, 9, 10, 11] 2 2, some "MJPEG", .throws⟩).2 =
      some ⟨[1, 2, 3, 4, 5, 6, 7, 8, 9, 10, 11], 2, 2, "MJPEG"⟩ ∧
    (captureFrame ⟨true, true, 0, 0, false, false, true⟩
        ⟨some true, .frame [1, 2, 3, 4, 5, 6, 7, 8, 9, 10, 11] 2 2, some "MJPEG", .throws⟩).1.consecutiveErrors = 0 :=
  C6_decode_failure_delivers ⟨true, true, 0, 0, false, false, true⟩
    ⟨some true, .frame [1, 2, 3, 4, 5, 6, 7, 8, 9, 10, 11] 2 2, some "MJPEG", .throws⟩
    rfl rfl rfl rfl rfl rfl rfl [1, 2, 3, 4, 5, 6, 7, 8, 9, 10, 11] 2 2 rfl
    (by decide) (by decide) (by decide) (Or.inr (Or.inl rfl))

end CameraOverlay
